import Mathlib

/-!
Shallow embedding of `python/tfutils/evolutiontrainer.py` (class
`EvolutionTrainer`), the multi-stage ("evolution") training controller of
tfutils, together with theorems checking the natural-language specification
against it.

Collaborators of `EvolutionTrainer` that live outside the embedded source
file (`TrainerBase` name/status constants, the checkpoint-discovery helper
`retrieve_all_checkpoints`, the restore helper `optimistic_restore`, and the
filesystem) are represented abstractly, following the collaborator contracts
stated in the specification.
-/

namespace TfUtils

/-- Modelled from the spec: the name constants of the missing collaborator
class `TrainerBase` (process-id file, training-log directory, checkpoints
directory, recovery-checkpoints directory, checkpoint filename stem).  Their
concrete string values are not in the embedded source, so they are carried as
parameters.  `CHECKPOINTS_FILE_BASENAME` stands for the checkpoint filename
stem constant of `TrainerBase`. -/
structure TrainerBaseNames where
  PROCESSID_FILE : String
  TRAIN_LOGDIR : String
  CHECKPOINTS_DIR : String
  RECOVERY_CHECKPOINTS_DIR : String
  CHECKPOINTS_FILE_BASENAME : String
deriving Repr, DecidableEq

/-- Modelled from the spec: the filesystem and the checkpoint-discovery
collaborator.  `isdir` is `os.path.isdir`; `retrieve_all_checkpoints` is the
helper that, given a checkpoint file-prefix path, returns the
(iteration, path) pairs found on disk for that prefix, unsorted. -/
structure FS where
  isdir : String → Bool
  retrieve_all_checkpoints : String → List (Nat × String)

/-- Model of `os.path.join` for one relative component. -/
def joinPath (a b : String) : String := a ++ "/" ++ b

/-- Errors raised by `EvolutionTrainer`; each constructor corresponds to one
`raise` site of the source, carrying the offending name. -/
inductive EvoError where
  | invalidEvoName (name : String)
  | duplicateEvoName (name : String)
  | emptyEvolutionList
  | forceEvoNotInList (name : String)
  | notFirstNoSnapshot (name : String)
  | unknownEvolution (name : String)
deriving Repr, DecidableEq

/-- Reserved names tuple of `_check_evolution_names` (lines 128-134):
four `TrainerBase` constants plus the literal `testlogs`. -/
def invalid_names (tb : TrainerBaseNames) : List String :=
  [tb.PROCESSID_FILE, tb.TRAIN_LOGDIR, tb.CHECKPOINTS_DIR,
   tb.RECOVERY_CHECKPOINTS_DIR, "testlogs"]

/-- First loop of `_check_evolution_names`: raise on the first evolution name
that is in the reserved-names tuple. -/
def checkInvalidNames (invalid : List String) : List String → Except EvoError Unit
  | [] => Except.ok ()
  | e :: rest =>
    if e ∈ invalid then Except.error (EvoError.invalidEvoName e)
    else checkInvalidNames invalid rest

/-- Second loop of `_check_evolution_names`: raise on the first evolution name
already seen (duplicate detection via a growing set). -/
def checkDuplicateNames (seen : List String) : List String → Except EvoError Unit
  | [] => Except.ok ()
  | e :: rest =>
    if e ∈ seen then Except.error (EvoError.duplicateEvoName e)
    else checkDuplicateNames (e :: seen) rest

/-- `EvolutionTrainer._check_evolution_names` (lines 125-143). -/
def check_evolution_names (tb : TrainerBaseNames) (evolutions : List String) :
    Except EvoError Unit :=
  match checkInvalidNames (invalid_names tb) evolutions with
  | Except.error e => Except.error e
  | Except.ok _ => checkDuplicateNames [] evolutions

/-- Stable insertion step used to model Python `sorted` (insert before the
first element not below `x`). -/
def insertSorted (le : α → α → Bool) (x : α) : List α → List α
  | [] => [x]
  | y :: ys => if le x y then x :: y :: ys else y :: insertSorted le x ys

/-- Model of Python `sorted`, a stable ascending sort.  The comparison used
here on (iteration, path) pairs is a total order, so any correct sort agrees
with Python element by element. -/
def pySorted (le : α → α → Bool) : List α → List α
  | [] => []
  | x :: xs => insertSorted le x (pySorted le xs)

/-- Python lexicographic order on (iteration, path) tuples, as used when
sorting checkpoint lists. -/
def ckptLe (a b : Nat × String) : Bool :=
  decide (a.1 < b.1) || (a.1 == b.1 && decide (a.2 ≤ b.2))

/-- Path of the checkpoint file prefix of a stage directory kind, mirroring
the `os.path.join(self._train_dir, evo, DIR, FILE_PREFIX)` expressions. -/
def ckptPrefixPath (tb : TrainerBaseNames) (train_dir evo dirName : String) : String :=
  joinPath (joinPath (joinPath train_dir evo) dirName) tb.CHECKPOINTS_FILE_BASENAME

/-- Python truthiness of `current_evo` / `previous_evo` strings at lines
174 and 182: a string tests true iff it is non-empty. -/
def strTruthy (s : String) : Bool := s != ""

/-- `EvolutionTrainer._retrieve_current_evolution_and_last_snapshot`
(lines 146-188), as a pure function of the stage list, filesystem state and
optional override.  Returns (current evolution, optional snapshot triple
(evolution, iteration, path)).  The caller (`__init__`) guarantees the
evolution list is non-empty before calling, so the `evolutions[0]` access is
modelled with `headD`. -/
def retrieve_current_evolution_and_last_snapshot (tb : TrainerBaseNames) (fs : FS)
    (train_dir : String) (evolutions : List String) (force_evo : Option String) :
    String × Option (String × Nat × String) :=
  let found : Option String :=
    match force_evo with
    | none => evolutions.reverse.find? (fun evo => fs.isdir (joinPath train_dir evo))
    | some f => some f
  let current_evo : String :=
    match found with
    | some e => e
    | none => evolutions.headD ""
  let current_evo_index := evolutions.indexOf current_evo
  let previous_evo : Option String :=
    if current_evo_index > 0 then some (evolutions.getD (current_evo_index - 1) "")
    else none
  let snapshot₀ : Option (String × Nat × String) :=
    if strTruthy current_evo then
      let evo_checkpoint_path := ckptPrefixPath tb train_dir current_evo tb.CHECKPOINTS_DIR
      let evo_recovery_checkpoint_path :=
        ckptPrefixPath tb train_dir current_evo tb.RECOVERY_CHECKPOINTS_DIR
      let all_checkpoints := pySorted ckptLe
        (fs.retrieve_all_checkpoints evo_checkpoint_path ++
         fs.retrieve_all_checkpoints evo_recovery_checkpoint_path)
      match all_checkpoints.getLast? with
      | some last => some (current_evo, last.1, last.2)
      | none => none
    else none
  let snapshot : Option (String × Nat × String) :=
    match snapshot₀, previous_evo with
    | some s, _ => some s
    | none, some prev =>
      if strTruthy prev then
        let evo_checkpoint_path := ckptPrefixPath tb train_dir prev tb.CHECKPOINTS_DIR
        let all_checkpoints := fs.retrieve_all_checkpoints evo_checkpoint_path
        match all_checkpoints.getLast? with
        | some last => some (prev, last.1, last.2)
        | none => none
      else none
    | none, none => none
  (current_evo, snapshot)

/-- Resolved state of a constructed `EvolutionTrainer`: the fields assigned in
`__init__` (lines 114-122).  Producing this record corresponds to reaching the
`SimpleTrainer` instantiation at line 122. -/
structure EvoTrainerState where
  train_dir : String
  evolutions : List String
  current_evolution : String
  init_snapshot : Option (String × Nat × String)
  current_evolution_dir : String
deriving Repr, DecidableEq

/-- Tail of `__init__` after the argument checks (lines 114-122): resolve the
current evolution and snapshot, enforce the first-stage/seed invariant, and
build the state handed to `SimpleTrainer`. -/
def initResolve (tb : TrainerBaseNames) (fs : FS) (train_dir : String)
    (evolutions : List String) (force_evo : Option String) :
    Except EvoError EvoTrainerState :=
  let res := retrieve_current_evolution_and_last_snapshot tb fs train_dir evolutions force_evo
  let current_evo := res.1
  let snapshot := res.2
  if evolutions.indexOf current_evo > 0 ∧ snapshot = none then
    Except.error (EvoError.notFirstNoSnapshot current_evo)
  else
    Except.ok
      { train_dir := train_dir
        evolutions := evolutions
        current_evolution := current_evo
        init_snapshot := snapshot
        current_evolution_dir := joinPath train_dir current_evo }

/-- `EvolutionTrainer.__init__` (lines 79-122): name validation, emptiness
check, override-membership check, resolution, and the seed-snapshot
invariant, in source order.  An error result means construction raised before
the underlying `SimpleTrainer` was instantiated. -/
def EvolutionTrainer_init (tb : TrainerBaseNames) (fs : FS) (train_dir : String)
    (evolutions : List String) (force_evo : Option String) :
    Except EvoError EvoTrainerState :=
  match check_evolution_names tb evolutions with
  | Except.error e => Except.error e
  | Except.ok _ =>
    if evolutions.length = 0 then Except.error EvoError.emptyEvolutionList
    else
      match force_evo with
      | some f =>
        if f ∈ evolutions then initResolve tb fs train_dir evolutions (some f)
        else Except.error (EvoError.forceEvoNotInList f)
      | none => initResolve tb fs train_dir evolutions none

/-- `EvolutionTrainer._Evo` (lines 31-76): a stage name bound to the full
stage list, supporting index-based comparisons. -/
structure Evo where
  evolution : String
  all_evolutions : List String
deriving Repr, DecidableEq

/-- `_Evo.evo_compare` (lines 37-52): raise on an unknown right-hand name,
otherwise compare the list indices of the two names. -/
def Evo.evo_compare (e : Evo) (cmp : Nat → Nat → Bool) (other : String) :
    Except EvoError Bool :=
  if other ∈ e.all_evolutions then
    Except.ok (cmp (e.all_evolutions.indexOf e.evolution) (e.all_evolutions.indexOf other))
  else Except.error (EvoError.unknownEvolution other)

/-- `_Evo.__eq__`. -/
def Evo.cmpEq (e : Evo) (other : String) : Except EvoError Bool :=
  e.evo_compare (fun a b => a == b) other

/-- `_Evo.__ne__`. -/
def Evo.cmpNe (e : Evo) (other : String) : Except EvoError Bool :=
  e.evo_compare (fun a b => a != b) other

/-- `_Evo.__lt__`. -/
def Evo.cmpLt (e : Evo) (other : String) : Except EvoError Bool :=
  e.evo_compare (fun a b => decide (a < b)) other

/-- `_Evo.__le__`. -/
def Evo.cmpLe (e : Evo) (other : String) : Except EvoError Bool :=
  e.evo_compare (fun a b => decide (a ≤ b)) other

/-- `_Evo.__gt__`. -/
def Evo.cmpGt (e : Evo) (other : String) : Except EvoError Bool :=
  e.evo_compare (fun a b => decide (a > b)) other

/-- `_Evo.__ge__`. -/
def Evo.cmpGe (e : Evo) (other : String) : Except EvoError Bool :=
  e.evo_compare (fun a b => decide (a ≥ b)) other

/-- `EvolutionTrainer.current_evo` property (lines 205-208). -/
def current_evo (st : EvoTrainerState) : Evo :=
  { evolution := st.current_evolution, all_evolutions := st.evolutions }

/-- `current_evo_lt` shortcut (lines 217-218). -/
def current_evo_lt (st : EvoTrainerState) (evo : String) : Except EvoError Bool :=
  (current_evo st).cmpLt evo

/-- `current_evo_le` shortcut (lines 220-221). -/
def current_evo_le (st : EvoTrainerState) (evo : String) : Except EvoError Bool :=
  (current_evo st).cmpLe evo

/-- `current_evo_gt` shortcut (lines 223-224). -/
def current_evo_gt (st : EvoTrainerState) (evo : String) : Except EvoError Bool :=
  (current_evo st).cmpGt evo

/-- `current_evo_ge` shortcut (lines 226-227). -/
def current_evo_ge (st : EvoTrainerState) (evo : String) : Except EvoError Bool :=
  (current_evo st).cmpGe evo

/-- `current_evo_eq` shortcut (lines 229-230). -/
def current_evo_eq (st : EvoTrainerState) (evo : String) : Except EvoError Bool :=
  (current_evo st).cmpEq evo

/-- `current_evo_ne` shortcut (lines 232-233). -/
def current_evo_ne (st : EvoTrainerState) (evo : String) : Except EvoError Bool :=
  (current_evo st).cmpNe evo

/-- Validation loop of `current_evo_in` (lines 236-238): raise on the first
queried name not in the stage list. -/
def checkEvosKnown (all : List String) : List String → Except EvoError Unit
  | [] => Except.ok ()
  | e :: rest =>
    if e ∈ all then checkEvosKnown all rest
    else Except.error (EvoError.unknownEvolution e)

/-- `EvolutionTrainer.current_evo_in` (lines 235-239). -/
def current_evo_in (st : EvoTrainerState) (evos : List String) : Except EvoError Bool :=
  match checkEvosKnown st.evolutions evos with
  | Except.error err => Except.error err
  | Except.ok _ => Except.ok (decide (st.current_evolution ∈ evos))

/-- Observable effect of one `load_checkpoint` call: which restore call was
issued (with which arguments), or that nothing was restored. -/
inductive RestoreAction where
  | explicitRestore (path : String) (verbose : Bool)
  | snapshotRestore (path : String) (ignore_vars : Option (List String))
      (verbose : Bool) (remove_nonfinite_checkpoints : Bool)
  | noRestore
deriving Repr, DecidableEq

/-- Python truthiness of the `checkpoint_filepath` argument at line 257:
`None` and the empty string test false. -/
def optStrTruthy : Option String → Bool
  | none => false
  | some s => s != ""

/-- `EvolutionTrainer.load_checkpoint` (lines 242-272).  `explicitRestore`
records the `optimistic_restore(session, path, verbose=verbose)` call of the
explicit-path branch — that call passes neither an `ignore_vars` set nor the
`remove_nonfinite_checkpoints` flag.  `snapshotRestore` records the
resolved-snapshot call with its exclusion set and flags. -/
def load_checkpoint (st : EvoTrainerState) (checkpoint_filepath : Option String)
    (verbose : Bool) (remove_nonfinite_checkpoints : Bool) : RestoreAction :=
  if optStrTruthy checkpoint_filepath then
    RestoreAction.explicitRestore (checkpoint_filepath.getD "") verbose
  else
    match st.init_snapshot with
    | some snap =>
      let ignore_vars : Option (List String) :=
        if st.current_evolution ≠ snap.1 then some ["global_step"] else none
      RestoreAction.snapshotRestore snap.2.2 ignore_vars verbose remove_nonfinite_checkpoints
    | none => RestoreAction.noRestore

/-- Modelled from the spec: the closed set of status codes returned by the
missing collaborator `TrainerBase` / `SimpleTrainer.mainloop`
(training-finished, training-unfinished, training-diverged on non-finite
loss, and possibly others treated opaquely). -/
inductive Status where
  | finished
  | unfinished
  | nanLoss
  | other (code : Nat)
deriving Repr, DecidableEq

/-- Model of `os.makedirs(path, exist_ok=True)` on an abstract set of existing
directories: creating an already-existing directory is a no-op, never an
error. -/
def makedirs_exist_ok (dirs : List String) (path : String) : List String :=
  if path ∈ dirs then dirs else dirs ++ [path]

/-- Transition logic of `EvolutionTrainer.mainloop` (lines 329-348) after the
underlying trainer returned `status`: on the training-finished status with a
successor stage in the list, create the successor's directory and report the
training-unfinished status; otherwise pass `status` through and touch
nothing.  Returns (reported status, directories after the call). -/
def mainloop (st : EvoTrainerState) (dirs : List String) (status : Status) :
    Status × List String :=
  let evo_index := st.evolutions.indexOf st.current_evolution
  if status = Status.finished then
    if h : evo_index + 1 < st.evolutions.length then
      let next_evolution_dir :=
        joinPath st.train_dir (st.evolutions.get ⟨evo_index + 1, h⟩)
      (Status.unfinished, makedirs_exist_ok dirs next_evolution_dir)
    else (status, dirs)
  else (status, dirs)

/-- Classifier for the three construction-time name-validation errors
(reserved-name collision, duplicate name, empty list). -/
def EvoError.isNameValidationError : EvoError → Bool
  | EvoError.invalidEvoName _ => true
  | EvoError.duplicateEvoName _ => true
  | EvoError.emptyEvolutionList => true
  | _ => false

lemma mem_makedirs_exist_ok_self (dirs : List String) (p : String) :
    p ∈ makedirs_exist_ok dirs p := by
  unfold makedirs_exist_ok
  by_cases h : p ∈ dirs <;> simp [h]

/-- Claim C10: calling `load_checkpoint` with the empty string as explicit
path behaves identically to calling it with no path at all (Python truthiness
of the `checkpoint_filepath` argument), never restoring from a file named by
the empty string. -/
theorem load_checkpoint_empty_path_eq_no_path :
    ∀ (st : EvoTrainerState) (v r : Bool),
      load_checkpoint st (some "") v r = load_checkpoint st none v r := by
  intro st v r
  rfl

/-- Claim C5: `load_checkpoint` without an explicit path restores the resolved
seed snapshot, excluding exactly `global_step` when the snapshot's stage
differs from the current stage and excluding nothing when it is the same
stage; with no resolved snapshot it restores nothing; with an explicit
(non-empty) path it restores exactly that file, with no exclusion set and
with the `remove_nonfinite_checkpoints` flag having no effect. -/
theorem load_checkpoint_spec :
    ∀ (st : EvoTrainerState) (v r : Bool),
      (∀ evoName iter path, st.init_snapshot = some (evoName, iter, path) →
        st.current_evolution ≠ evoName →
        load_checkpoint st none v r =
          RestoreAction.snapshotRestore path (some ["global_step"]) v r) ∧
      (∀ evoName iter path, st.init_snapshot = some (evoName, iter, path) →
        st.current_evolution = evoName →
        load_checkpoint st none v r = RestoreAction.snapshotRestore path none v r) ∧
      (st.init_snapshot = none → load_checkpoint st none v r = RestoreAction.noRestore) ∧
      (∀ p, p ≠ "" →
        load_checkpoint st (some p) v r = RestoreAction.explicitRestore p v) := by
  intro st v r
  refine ⟨?_, ?_, ?_, ?_⟩
  · intro evoName iter path hsnap hne
    simp [load_checkpoint, optStrTruthy, hsnap, hne]
  · intro evoName iter path hsnap heq
    simp [load_checkpoint, optStrTruthy, hsnap, heq]
  · intro hsnap
    simp [load_checkpoint, optStrTruthy, hsnap]
  · intro p hp
    simp [load_checkpoint, optStrTruthy, hp]

/-- Witness for claim C5 at concrete states: a previous-stage snapshot
excludes `global_step`, and an explicit path is restored as given. -/
theorem load_checkpoint_spec_witness :
    load_checkpoint ⟨"t", ["a", "b"], "b", some ("a", 20, "t/a/ck"), "t/b"⟩ none true false =
      RestoreAction.snapshotRestore "t/a/ck" (some ["global_step"]) true false ∧
    load_checkpoint ⟨"t", ["a", "b"], "b", none, "t/b"⟩ (some "x") true true =
      RestoreAction.explicitRestore "x" true :=
  ⟨(load_checkpoint_spec ⟨"t", ["a", "b"], "b", some ("a", 20, "t/a/ck"), "t/b"⟩
      true false).1 "a" 20 "t/a/ck" rfl (by decide),
   (load_checkpoint_spec ⟨"t", ["a", "b"], "b", none, "t/b"⟩
      true true).2.2.2 "x" (by decide)⟩

/-- Claim C1: when the underlying mainloop reports the training-finished
status and a successor stage exists, `mainloop` creates the successor stage's
directory (creation tolerates prior existence: it is a no-op on an existing
directory) and reports the training-unfinished status instead; on the
finished status with no successor the finished status is passed through with
no directory change; any other status is passed through with no directory
change. -/
theorem mainloop_transition_spec :
    ∀ (st : EvoTrainerState) (dirs : List String) (status : Status),
      (∀ h : st.evolutions.indexOf st.current_evolution + 1 < st.evolutions.length,
        status = Status.finished →
          (mainloop st dirs status).1 = Status.unfinished ∧
          joinPath st.train_dir
              (st.evolutions.get ⟨st.evolutions.indexOf st.current_evolution + 1, h⟩) ∈
            (mainloop st dirs status).2 ∧
          Status.unfinished ≠ Status.finished) ∧
      (status = Status.finished →
        ¬ st.evolutions.indexOf st.current_evolution + 1 < st.evolutions.length →
        mainloop st dirs status = (Status.finished, dirs)) ∧
      (status ≠ Status.finished → mainloop st dirs status = (status, dirs)) ∧
      (∀ ds p, p ∈ ds → makedirs_exist_ok ds p = ds) := by
  intro st dirs status
  refine ⟨?_, ?_, ?_, ?_⟩
  · intro h hfin
    subst hfin
    refine ⟨?_, ?_, by simp⟩
    · simp [mainloop, h]
    · simp only [mainloop, if_pos rfl, dif_pos h]
      exact mem_makedirs_exist_ok_self dirs _
  · intro hfin hnot
    subst hfin
    simp [mainloop, hnot]
  · intro hne
    simp [mainloop, hne]
  · intro ds p hp
    simp [makedirs_exist_ok, hp]

/-- Witness for claim C1 at a concrete state: with stages `["a", "b"]`,
current `"a"` and the finished status, the reported status is unfinished and
the directory `t/b` exists afterwards. -/
theorem mainloop_transition_spec_witness :
    (mainloop ⟨"t", ["a", "b"], "a", none, "t/a"⟩ [] Status.finished).1 =
      Status.unfinished ∧
    joinPath "t" "b" ∈ (mainloop ⟨"t", ["a", "b"], "a", none, "t/a"⟩ [] Status.finished).2 := by
  have h := (mainloop_transition_spec ⟨"t", ["a", "b"], "a", none, "t/a"⟩ []
    Status.finished).1 (by decide) rfl
  exact ⟨h.1, h.2.1⟩

lemma checkEvosKnown_ok (all : List String) (qs : List String)
    (h : ∀ e ∈ qs, e ∈ all) : checkEvosKnown all qs = Except.ok () := by
  induction qs with
  | nil => rfl
  | cons e rest ih =>
    have he : e ∈ all := h e (List.mem_cons_self e rest)
    simp only [checkEvosKnown, if_pos he]
    exact ih fun x hx => h x (List.mem_cons_of_mem e hx)

lemma checkEvosKnown_error (all : List String) (qs : List String)
    (h : ∃ e ∈ qs, e ∉ all) :
    ∃ x, x ∈ qs ∧ x ∉ all ∧
      checkEvosKnown all qs = Except.error (EvoError.unknownEvolution x) := by
  induction qs with
  | nil => simp at h
  | cons e rest ih =>
    by_cases he : e ∈ all
    · obtain ⟨x, hxmem, hxnot⟩ := h
      rcases List.mem_cons.mp hxmem with hx | hx
      · exact absurd he (hx ▸ hxnot)
      · obtain ⟨y, hy₁, hy₂, hy₃⟩ := ih ⟨x, hx, hxnot⟩
        exact ⟨y, List.mem_cons_of_mem e hy₁, hy₂, by
          simp only [checkEvosKnown, if_pos he]; exact hy₃⟩
    · exact ⟨e, List.mem_cons_self e rest, he, by
        simp only [checkEvosKnown, if_neg he]⟩

/-- Claim C7: with a duplicate-free stage list, each of the six relational
queries between the current stage (at position `i`) and a queried name in the
list (at position `j`) returns the comparison of the positions `i` and `j`,
not a lexical comparison of the strings. -/
theorem evo_compare_by_list_index :
    ∀ (st : EvoTrainerState), st.evolutions.Nodup →
      ∀ (i j : Fin st.evolutions.length),
        st.current_evolution = st.evolutions.get i →
        current_evo_eq st (st.evolutions.get j) = Except.ok (decide (i.val = j.val)) ∧
        current_evo_ne st (st.evolutions.get j) = Except.ok (decide (i.val ≠ j.val)) ∧
        current_evo_lt st (st.evolutions.get j) = Except.ok (decide (i.val < j.val)) ∧
        current_evo_le st (st.evolutions.get j) = Except.ok (decide (i.val ≤ j.val)) ∧
        current_evo_gt st (st.evolutions.get j) = Except.ok (decide (j.val < i.val)) ∧
        current_evo_ge st (st.evolutions.get j) = Except.ok (decide (j.val ≤ i.val)) := by
  intro st hnd i j hcur
  have hmem : st.evolutions.get j ∈ st.evolutions := st.evolutions.get_mem j.val j.isLt
  have hidx_i : st.evolutions.indexOf (current_evo st).evolution = i.val := by
    show st.evolutions.indexOf st.current_evolution = i.val
    rw [hcur]
    exact List.get_indexOf hnd i
  have hidx_j : st.evolutions.indexOf (st.evolutions.get j) = j.val :=
    List.get_indexOf hnd j
  have hall : (current_evo st).all_evolutions = st.evolutions := rfl
  refine ⟨?_, ?_, ?_, ?_, ?_, ?_⟩ <;>
    simp only [current_evo_eq, current_evo_ne, current_evo_lt, current_evo_le,
      current_evo_gt, current_evo_ge, Evo.cmpEq, Evo.cmpNe, Evo.cmpLt, Evo.cmpLe,
      Evo.cmpGt, Evo.cmpGe, Evo.evo_compare, hall, if_pos hmem, hidx_i, hidx_j] <;>
    first
      | rfl
      | (by_cases h : i.val = j.val <;> simp [h])

/-- Witness for claim C7: for list `["a", "b", "c"]` with current `"b"`, the
less-than query against `"c"`, the greater-than query against `"a"` and the
equality query against `"b"` all return true. -/
theorem evo_compare_by_list_index_witness :
    current_evo_lt ⟨"t", ["a", "b", "c"], "b", none, "t/b"⟩ "c" = Except.ok true ∧
    current_evo_gt ⟨"t", ["a", "b", "c"], "b", none, "t/b"⟩ "a" = Except.ok true ∧
    current_evo_eq ⟨"t", ["a", "b", "c"], "b", none, "t/b"⟩ "b" = Except.ok true := by
  have h₁ := evo_compare_by_list_index ⟨"t", ["a", "b", "c"], "b", none, "t/b"⟩
    (by decide) ⟨1, by decide⟩ ⟨2, by decide⟩ rfl
  have h₂ := evo_compare_by_list_index ⟨"t", ["a", "b", "c"], "b", none, "t/b"⟩
    (by decide) ⟨1, by decide⟩ ⟨0, by decide⟩ rfl
  have h₃ := evo_compare_by_list_index ⟨"t", ["a", "b", "c"], "b", none, "t/b"⟩
    (by decide) ⟨1, by decide⟩ ⟨1, by decide⟩ rfl
  exact ⟨h₁.2.2.1, h₂.2.2.2.2.1, h₃.1⟩

/-- Claim C8: every one of the six relational queries against a name not in
the stage list returns the unknown-stage error; the membership query returns
the unknown-stage error for some absent queried name whenever any queried
name is absent from the stage list (regardless of the current stage), and
returns whether the current stage is among the queried names when all of
them are in the list. -/
theorem unknown_stage_query_errors :
    ∀ (st : EvoTrainerState),
      (∀ other, other ∉ st.evolutions →
        current_evo_eq st other = Except.error (EvoError.unknownEvolution other) ∧
        current_evo_ne st other = Except.error (EvoError.unknownEvolution other) ∧
        current_evo_lt st other = Except.error (EvoError.unknownEvolution other) ∧
        current_evo_le st other = Except.error (EvoError.unknownEvolution other) ∧
        current_evo_gt st other = Except.error (EvoError.unknownEvolution other) ∧
        current_evo_ge st other = Except.error (EvoError.unknownEvolution other)) ∧
      (∀ qs, (∃ e ∈ qs, e ∉ st.evolutions) →
        ∃ x, x ∈ qs ∧ x ∉ st.evolutions ∧
          current_evo_in st qs = Except.error (EvoError.unknownEvolution x)) ∧
      (∀ qs, (∀ e ∈ qs, e ∈ st.evolutions) →
        current_evo_in st qs = Except.ok (decide (st.current_evolution ∈ qs))) := by
  intro st
  refine ⟨?_, ?_, ?_⟩
  · intro other hother
    have hall : (current_evo st).all_evolutions = st.evolutions := rfl
    refine ⟨?_, ?_, ?_, ?_, ?_, ?_⟩
    all_goals
      simp [current_evo_eq, current_evo_ne, current_evo_lt, current_evo_le,
        current_evo_gt, current_evo_ge, Evo.cmpEq, Evo.cmpNe, Evo.cmpLt, Evo.cmpLe,
        Evo.cmpGt, Evo.cmpGe, Evo.evo_compare, hall, hother]
  · intro qs hqs
    obtain ⟨x, hx₁, hx₂, hx₃⟩ := checkEvosKnown_error st.evolutions qs hqs
    exact ⟨x, hx₁, hx₂, by simp only [current_evo_in, hx₃]⟩
  · intro qs hqs
    simp only [current_evo_in, checkEvosKnown_ok st.evolutions qs hqs]

/-- Witness for claim C8: with list `["a", "b", "c"]` and current `"b"`, the
less-than query against `"z"` errors, the membership query over
`["b", "z"]` errors on `"z"` even though `"b"` is the current stage, and the
membership query over `["a", "b"]` returns true. -/
theorem unknown_stage_query_errors_witness :
    current_evo_lt ⟨"t", ["a", "b", "c"], "b", none, "t/b"⟩ "z" =
      Except.error (EvoError.unknownEvolution "z") ∧
    (∃ x, x ∈ ["b", "z"] ∧ x ∉ ["a", "b", "c"] ∧
      current_evo_in ⟨"t", ["a", "b", "c"], "b", none, "t/b"⟩ ["b", "z"] =
        Except.error (EvoError.unknownEvolution x)) ∧
    current_evo_in ⟨"t", ["a", "b", "c"], "b", none, "t/b"⟩ ["a", "b"] =
      Except.ok true := by
  have h := unknown_stage_query_errors ⟨"t", ["a", "b", "c"], "b", none, "t/b"⟩
  refine ⟨(h.1 "z" (by decide)).2.2.1, h.2.1 ["b", "z"] ⟨"z", by decide, by decide⟩, ?_⟩
  have h₃ := h.2.2 ["a", "b"] (by decide)
  simpa using h₃

lemma retrieve_fst (tb : TrainerBaseNames) (fs : FS) (train_dir : String)
    (evolutions : List String) (force_evo : Option String) :
    (retrieve_current_evolution_and_last_snapshot tb fs train_dir evolutions force_evo).1 =
      match (match force_evo with
             | none =>
               evolutions.reverse.find? (fun evo => fs.isdir (joinPath train_dir evo))
             | some f => some f) with
      | some e => e
      | none => evolutions.headD "" := rfl

/-- Claim C2: with no override, resolution selects the stage with the highest
list index whose directory exists under the base path (the decomposition
`l₁ ++ x :: l₂` with `x` existing and nothing after it existing), and the
first stage when no stage directory exists. -/
theorem resolve_current_stage_spec :
    ∀ (tb : TrainerBaseNames) (fs : FS) (train_dir : String) (evolutions : List String)
      (hne : evolutions ≠ []),
      ((∀ e ∈ evolutions, fs.isdir (joinPath train_dir e) = false) →
        (retrieve_current_evolution_and_last_snapshot tb fs train_dir evolutions none).1 =
          evolutions.head hne) ∧
      (∀ l₁ x l₂, evolutions = l₁ ++ x :: l₂ →
        fs.isdir (joinPath train_dir x) = true →
        (∀ y ∈ l₂, fs.isdir (joinPath train_dir y) = false) →
        (retrieve_current_evolution_and_last_snapshot tb fs train_dir evolutions none).1 =
          x) := by
  intro tb fs train_dir evolutions hne
  constructor
  · intro hnone
    obtain ⟨a, l, rfl⟩ := List.exists_cons_of_ne_nil hne
    rw [retrieve_fst]
    have hfind : (a :: l).reverse.find?
        (fun evo => fs.isdir (joinPath train_dir evo)) = none :=
      List.find?_eq_none.mpr fun x hx => by
        simp [hnone x (List.mem_reverse.mp hx)]
    rw [hfind]
    rfl
  · intro l₁ x l₂ hdec hx hl₂
    subst hdec
    rw [retrieve_fst]
    have h₂ : l₂.reverse.find? (fun evo => fs.isdir (joinPath train_dir evo)) = none :=
      List.find?_eq_none.mpr fun y hy => by
        simp [hl₂ y (List.mem_reverse.mp hy)]
    have hfind : (l₁ ++ x :: l₂).reverse.find?
        (fun evo => fs.isdir (joinPath train_dir evo)) = some x := by
      rw [List.reverse_append, List.reverse_cons, List.append_assoc,
        List.find?_append, h₂]
      simp only [Option.none_or, List.singleton_append]
      exact List.find?_cons_of_pos _ (by simpa using hx)
    rw [hfind]

/-- Witness for claim C2: with stages `["a", "b", "c"]` and directories
present for indices 0 and 2 only, resolution yields stage `"c"`. -/
theorem resolve_current_stage_spec_witness :
    (retrieve_current_evolution_and_last_snapshot
      ⟨"pid", "log", "checkpoints", "recovery_checkpoints", "snap"⟩
      ⟨fun s => s == "base/a" || s == "base/c", fun _ => []⟩
      "base" ["a", "b", "c"] none).1 = "c" :=
  (resolve_current_stage_spec
    ⟨"pid", "log", "checkpoints", "recovery_checkpoints", "snap"⟩
    ⟨fun s => s == "base/a" || s == "base/c", fun _ => []⟩
    "base" ["a", "b", "c"] (by decide)).2
    ["a", "b"] "c" [] rfl (by decide) (by decide)

lemma initResolve_spec (tb : TrainerBaseNames) (fs : FS) (train_dir : String)
    (evolutions : List String) (force_evo : Option String) :
    initResolve tb fs train_dir evolutions force_evo =
      if evolutions.indexOf
            (retrieve_current_evolution_and_last_snapshot tb fs train_dir evolutions
              force_evo).1 > 0 ∧
          (retrieve_current_evolution_and_last_snapshot tb fs train_dir evolutions
            force_evo).2 = none
      then Except.error (EvoError.notFirstNoSnapshot
        (retrieve_current_evolution_and_last_snapshot tb fs train_dir evolutions force_evo).1)
      else Except.ok
        { train_dir := train_dir
          evolutions := evolutions
          current_evolution :=
            (retrieve_current_evolution_and_last_snapshot tb fs train_dir evolutions
              force_evo).1
          init_snapshot :=
            (retrieve_current_evolution_and_last_snapshot tb fs train_dir evolutions
              force_evo).2
          current_evolution_dir := joinPath train_dir
            (retrieve_current_evolution_and_last_snapshot tb fs train_dir evolutions
              force_evo).1 } := rfl

lemma init_eq_initResolve (tb : TrainerBaseNames) (fs : FS) (train_dir : String)
    (evolutions : List String) (force_evo : Option String)
    (hchk : check_evolution_names tb evolutions = Except.ok ())
    (hne : evolutions ≠ [])
    (hforce : ∀ f, force_evo = some f → f ∈ evolutions) :
    EvolutionTrainer_init tb fs train_dir evolutions force_evo =
      initResolve tb fs train_dir evolutions force_evo := by
  have hlen : ¬ evolutions.length = 0 := by
    simpa [List.length_eq_zero] using hne
  cases force_evo with
  | none => simp [EvolutionTrainer_init, hchk, hlen]
  | some f => simp [EvolutionTrainer_init, hchk, hlen, hforce f rfl]

/-- Claim C4: under the construction-time checks that precede resolution,
if the resolved current stage is not the first stage of the list and no seed
snapshot was found (in neither the current stage's checkpoint directories nor
the previous stage's normal checkpoint directory), construction fails with
the fatal no-seed error; if the resolved current stage is the first stage, an
absent snapshot is not an error and construction succeeds. -/
theorem init_seed_invariant :
    ∀ (tb : TrainerBaseNames) (fs : FS) (train_dir : String) (evolutions : List String)
      (force_evo : Option String),
      check_evolution_names tb evolutions = Except.ok () →
      evolutions ≠ [] →
      (∀ f, force_evo = some f → f ∈ evolutions) →
      ((retrieve_current_evolution_and_last_snapshot tb fs train_dir evolutions
          force_evo).2 = none →
        evolutions.indexOf
            (retrieve_current_evolution_and_last_snapshot tb fs train_dir evolutions
              force_evo).1 > 0 →
        EvolutionTrainer_init tb fs train_dir evolutions force_evo =
          Except.error (EvoError.notFirstNoSnapshot
            (retrieve_current_evolution_and_last_snapshot tb fs train_dir evolutions
              force_evo).1)) ∧
      ((retrieve_current_evolution_and_last_snapshot tb fs train_dir evolutions
          force_evo).2 = none →
        evolutions.indexOf
            (retrieve_current_evolution_and_last_snapshot tb fs train_dir evolutions
              force_evo).1 = 0 →
        EvolutionTrainer_init tb fs train_dir evolutions force_evo =
          Except.ok
            { train_dir := train_dir
              evolutions := evolutions
              current_evolution :=
                (retrieve_current_evolution_and_last_snapshot tb fs train_dir evolutions
                  force_evo).1
              init_snapshot := none
              current_evolution_dir := joinPath train_dir
                (retrieve_current_evolution_and_last_snapshot tb fs train_dir evolutions
                  force_evo).1 }) := by
  intro tb fs train_dir evolutions force_evo hchk hne hforce
  constructor
  · intro hsnap hidx
    rw [init_eq_initResolve tb fs train_dir evolutions force_evo hchk hne hforce,
      initResolve_spec, if_pos ⟨hidx, hsnap⟩]
  · intro hsnap hidx
    rw [init_eq_initResolve tb fs train_dir evolutions force_evo hchk hne hforce,
      initResolve_spec, if_neg (by rw [hidx]; simp), hsnap]

/-- Witness for claim C4: with stages `["a", "b"]`, only the `t/b` directory
present and no checkpoints anywhere, resolution yields current stage `"b"`
with no snapshot and construction fails with the no-seed error. -/
theorem init_seed_invariant_witness :
    EvolutionTrainer_init ⟨"pid", "log", "checkpoints", "recovery_checkpoints", "snap"⟩
        ⟨fun s => s == "t/b", fun _ => []⟩ "t" ["a", "b"] none =
      Except.error (EvoError.notFirstNoSnapshot "b") :=
  (init_seed_invariant ⟨"pid", "log", "checkpoints", "recovery_checkpoints", "snap"⟩
    ⟨fun s => s == "t/b", fun _ => []⟩ "t" ["a", "b"] none
    rfl (by decide) (fun f h => Option.noConfusion h)).1 rfl (by decide)

/-- Claim C6: an override that is not a member of the stage list makes
construction fail with the not-in-list error, while a member override becomes
the current stage unconditionally — for every filesystem state, whether or
not a directory for it exists. -/
theorem force_override_spec :
    ∀ (tb : TrainerBaseNames) (fs : FS) (train_dir : String) (evolutions : List String)
      (f : String),
      (check_evolution_names tb evolutions = Except.ok () → evolutions ≠ [] →
        f ∉ evolutions →
        EvolutionTrainer_init tb fs train_dir evolutions (some f) =
          Except.error (EvoError.forceEvoNotInList f)) ∧
      ((retrieve_current_evolution_and_last_snapshot tb fs train_dir evolutions
          (some f)).1 = f) ∧
      (∀ st, EvolutionTrainer_init tb fs train_dir evolutions (some f) = Except.ok st →
        st.current_evolution = f) := by
  intro tb fs train_dir evolutions f
  refine ⟨?_, rfl, ?_⟩
  · intro hchk hne hf
    have hlen : ¬ evolutions.length = 0 := by
      simpa [List.length_eq_zero] using hne
    simp [EvolutionTrainer_init, hchk, hlen, hf]
  · intro st h
    cases hc : check_evolution_names tb evolutions with
    | error e =>
      have hinit : EvolutionTrainer_init tb fs train_dir evolutions (some f) =
          Except.error e := by
        unfold EvolutionTrainer_init
        rw [hc]
      rw [hinit] at h
      exact Except.noConfusion h
    | ok u =>
      have hinit : EvolutionTrainer_init tb fs train_dir evolutions (some f) =
          (if evolutions.length = 0 then Except.error EvoError.emptyEvolutionList
           else if f ∈ evolutions then initResolve tb fs train_dir evolutions (some f)
           else Except.error (EvoError.forceEvoNotInList f)) := by
        unfold EvolutionTrainer_init
        rw [hc]
      rw [hinit] at h
      by_cases hlen : evolutions.length = 0
      · rw [if_pos hlen] at h; exact Except.noConfusion h
      · rw [if_neg hlen] at h
        by_cases hf : f ∈ evolutions
        · rw [if_pos hf, initResolve_spec] at h
          split at h
          · exact Except.noConfusion h
          · injection h with h'
            subst h'
            rfl
        · rw [if_neg hf] at h
          exact Except.noConfusion h

/-- Witness for claim C6: with list `["a", "b", "c"]` and no `c` directory on
disk, forcing `"c"` still resolves current to `"c"`; forcing `"z"` fails. -/
theorem force_override_spec_witness :
    (retrieve_current_evolution_and_last_snapshot
      ⟨"pid", "log", "checkpoints", "recovery_checkpoints", "snap"⟩
      ⟨fun _ => false, fun _ => []⟩ "t" ["a", "b", "c"] (some "c")).1 = "c" ∧
    EvolutionTrainer_init ⟨"pid", "log", "checkpoints", "recovery_checkpoints", "snap"⟩
        ⟨fun _ => false, fun _ => []⟩ "t" ["a", "b", "c"] (some "z") =
      Except.error (EvoError.forceEvoNotInList "z") :=
  ⟨(force_override_spec ⟨"pid", "log", "checkpoints", "recovery_checkpoints", "snap"⟩
      ⟨fun _ => false, fun _ => []⟩ "t" ["a", "b", "c"] "c").2.1,
   (force_override_spec ⟨"pid", "log", "checkpoints", "recovery_checkpoints", "snap"⟩
      ⟨fun _ => false, fun _ => []⟩ "t" ["a", "b", "c"] "z").1
      rfl (by decide) (by decide)⟩

lemma checkInvalidNames_ok (inv : List String) (l : List String)
    (h : ∀ e ∈ l, e ∉ inv) : checkInvalidNames inv l = Except.ok () := by
  induction l with
  | nil => rfl
  | cons e rest ih =>
    have he : e ∉ inv := h e (List.mem_cons_self e rest)
    simp only [checkInvalidNames, if_neg he]
    exact ih fun x hx => h x (List.mem_cons_of_mem e hx)

lemma checkInvalidNames_error (inv : List String) (l : List String)
    (h : ∃ e ∈ l, e ∈ inv) :
    ∃ e, e ∈ l ∧ e ∈ inv ∧
      checkInvalidNames inv l = Except.error (EvoError.invalidEvoName e) := by
  induction l with
  | nil => simp at h
  | cons e rest ih =>
    by_cases he : e ∈ inv
    · exact ⟨e, List.mem_cons_self e rest, he, by
        simp only [checkInvalidNames, if_pos he]⟩
    · obtain ⟨x, hxmem, hxinv⟩ := h
      rcases List.mem_cons.mp hxmem with hx | hx
      · exact absurd hxinv (hx ▸ he)
      · obtain ⟨y, hy₁, hy₂, hy₃⟩ := ih ⟨x, hx, hxinv⟩
        exact ⟨y, List.mem_cons_of_mem e hy₁, hy₂, by
          simp only [checkInvalidNames, if_neg he]; exact hy₃⟩

lemma checkDuplicateNames_ok : ∀ (l seen : List String), l.Nodup →
    (∀ e ∈ l, e ∉ seen) → checkDuplicateNames seen l = Except.ok ()
  | [], _, _, _ => rfl
  | e :: rest, seen, hnd, hdisj => by
    have he : e ∉ seen := hdisj e (List.mem_cons_self e rest)
    simp only [checkDuplicateNames, if_neg he]
    refine checkDuplicateNames_ok rest (e :: seen) (List.Nodup.of_cons hnd) ?_
    intro x hx
    rw [List.mem_cons]
    push_neg
    exact ⟨fun hxe => (List.nodup_cons.mp hnd).1 (hxe ▸ hx),
      hdisj x (List.mem_cons_of_mem e hx)⟩

lemma checkDuplicateNames_error : ∀ (l seen : List String),
    (¬ l.Nodup ∨ ∃ e ∈ l, e ∈ seen) →
    ∃ e, checkDuplicateNames seen l = Except.error (EvoError.duplicateEvoName e)
  | [], _, h => by simp at h
  | e :: rest, seen, h => by
    by_cases he : e ∈ seen
    · exact ⟨e, by simp only [checkDuplicateNames, if_pos he]⟩
    · have hrec : ¬ rest.Nodup ∨ ∃ x ∈ rest, x ∈ e :: seen := by
        rcases h with hnd | ⟨x, hxmem, hxseen⟩
        · rw [List.nodup_cons] at hnd
          push_neg at hnd
          by_cases hmem : e ∈ rest
          · exact Or.inr ⟨e, hmem, List.mem_cons_self e seen⟩
          · exact Or.inl (hnd hmem)
        · rcases List.mem_cons.mp hxmem with hx | hx
          · exact absurd (hx ▸ hxseen) he
          · exact Or.inr ⟨x, hx, List.mem_cons_of_mem e hxseen⟩
      obtain ⟨y, hy⟩ := checkDuplicateNames_error rest (e :: seen) hrec
      exact ⟨y, by simp only [checkDuplicateNames, if_neg he]; exact hy⟩

lemma check_evolution_names_ok (tb : TrainerBaseNames) (evolutions : List String)
    (h1 : ∀ e ∈ evolutions, e ∉ invalid_names tb) (h2 : evolutions.Nodup) :
    check_evolution_names tb evolutions = Except.ok () := by
  unfold check_evolution_names
  rw [checkInvalidNames_ok (invalid_names tb) evolutions h1]
  exact checkDuplicateNames_ok evolutions [] h2 (by simp)

/-- Claim C9: a non-empty, duplicate-free stage list with no reserved-name
collision passes construction-time name validation (construction can only
fail with one of the later, non-validation errors); an empty list fails with
the empty-list error, a reserved-name collision fails with the invalid-name
error for a colliding name, and a duplicated name (with no reserved
collision) fails with the duplicate-name error — in each case the error is
returned, so the underlying trainer state is never constructed. -/
theorem construction_validation_spec :
    ∀ (tb : TrainerBaseNames) (fs : FS) (train_dir : String) (evolutions : List String)
      (force_evo : Option String),
      ((∀ e ∈ evolutions, e ∉ invalid_names tb) → evolutions.Nodup → evolutions ≠ [] →
        ∀ err, EvolutionTrainer_init tb fs train_dir evolutions force_evo =
            Except.error err →
          err.isNameValidationError = false) ∧
      (evolutions = [] →
        EvolutionTrainer_init tb fs train_dir evolutions force_evo =
          Except.error EvoError.emptyEvolutionList) ∧
      ((∃ e ∈ evolutions, e ∈ invalid_names tb) →
        ∃ e, e ∈ evolutions ∧ e ∈ invalid_names tb ∧
          EvolutionTrainer_init tb fs train_dir evolutions force_evo =
            Except.error (EvoError.invalidEvoName e)) ∧
      ((∀ e ∈ evolutions, e ∉ invalid_names tb) → ¬ evolutions.Nodup →
        ∃ e, EvolutionTrainer_init tb fs train_dir evolutions force_evo =
          Except.error (EvoError.duplicateEvoName e)) := by
  intro tb fs train_dir evolutions force_evo
  refine ⟨?_, ?_, ?_, ?_⟩
  · intro h1 h2 hne err herr
    have hchk := check_evolution_names_ok tb evolutions h1 h2
    have hlen : ¬ evolutions.length = 0 := by
      simpa [List.length_eq_zero] using hne
    cases force_evo with
    | none =>
      have hinit : EvolutionTrainer_init tb fs train_dir evolutions none =
          initResolve tb fs train_dir evolutions none :=
        init_eq_initResolve tb fs train_dir evolutions none hchk hne
          (fun f hf => Option.noConfusion hf)
      rw [hinit, initResolve_spec] at herr
      split at herr
      · injection herr with h'
        rw [← h']
        rfl
      · exact Except.noConfusion herr
    | some f =>
      by_cases hf : f ∈ evolutions
      · have hinit : EvolutionTrainer_init tb fs train_dir evolutions (some f) =
            initResolve tb fs train_dir evolutions (some f) :=
          init_eq_initResolve tb fs train_dir evolutions (some f) hchk hne
            (fun g hg => by injection hg with hg; exact hg ▸ hf)
        rw [hinit, initResolve_spec] at herr
        split at herr
        · injection herr with h'
          rw [← h']
          rfl
        · exact Except.noConfusion herr
      · have hinit : EvolutionTrainer_init tb fs train_dir evolutions (some f) =
            Except.error (EvoError.forceEvoNotInList f) := by
          simp [EvolutionTrainer_init, hchk, hlen, hf]
        rw [hinit] at herr
        injection herr with h'
        rw [← h']
        rfl
  · intro h
    subst h
    cases force_evo <;> rfl
  · intro h
    obtain ⟨e, he₁, he₂, he₃⟩ := checkInvalidNames_error (invalid_names tb) evolutions h
    have hc : check_evolution_names tb evolutions =
        Except.error (EvoError.invalidEvoName e) := by
      unfold check_evolution_names
      rw [he₃]
    refine ⟨e, he₁, he₂, ?_⟩
    unfold EvolutionTrainer_init
    rw [hc]
  · intro h1 h2
    have hok := checkInvalidNames_ok (invalid_names tb) evolutions h1
    obtain ⟨e, he⟩ := checkDuplicateNames_error evolutions [] (Or.inl h2)
    have hc : check_evolution_names tb evolutions =
        Except.error (EvoError.duplicateEvoName e) := by
      unfold check_evolution_names
      rw [hok]
      exact he
    refine ⟨e, ?_⟩
    unfold EvolutionTrainer_init
    rw [hc]

/-- Witness for claim C9: the empty stage list fails with the empty-list
error, and a list naming the reserved `testlogs` directory fails with the
invalid-name error. -/
theorem construction_validation_spec_witness :
    EvolutionTrainer_init ⟨"pid", "log", "checkpoints", "recovery_checkpoints", "snap"⟩
        ⟨fun _ => false, fun _ => []⟩ "t" [] none =
      Except.error EvoError.emptyEvolutionList ∧
    (∃ e, e ∈ ["testlogs"] ∧
      e ∈ invalid_names ⟨"pid", "log", "checkpoints", "recovery_checkpoints", "snap"⟩ ∧
      EvolutionTrainer_init ⟨"pid", "log", "checkpoints", "recovery_checkpoints", "snap"⟩
          ⟨fun _ => false, fun _ => []⟩ "t" ["testlogs"] none =
        Except.error (EvoError.invalidEvoName "testlogs")) :=
  ⟨(construction_validation_spec ⟨"pid", "log", "checkpoints", "recovery_checkpoints", "snap"⟩
      ⟨fun _ => false, fun _ => []⟩ "t" [] none).2.1 rfl,
   by
    obtain ⟨e, he₁, he₂, he₃⟩ := (construction_validation_spec
      ⟨"pid", "log", "checkpoints", "recovery_checkpoints", "snap"⟩
      ⟨fun _ => false, fun _ => []⟩ "t" ["testlogs"] none).2.2.1
      ⟨"testlogs", by decide, by decide⟩
    have : e = "testlogs" := by
      rcases List.mem_singleton.mp he₁ with h
      exact h
    exact ⟨e, he₁, he₂, this ▸ he₃⟩⟩

/-- Claim C3, failing evaluation: with stages `["a", "b"]`, current stage
resolved to `"b"` with no checkpoints of its own, and checkpoint discovery
listing the previous stage's normal-directory checkpoints in the (unsorted)
order `[(20, ...), (5, ...)]`, the previous-stage fallback returns the last
listed pair — iteration 5 — not the highest-iteration checkpoint
(iteration 20): line 184 takes the last element of the discovery result
without sorting it, unlike the current-stage branch at line 177.  The
highest-iteration pair is present in the discovery result. -/
theorem retrieve_prev_stage_unsorted_eval :
    (retrieve_current_evolution_and_last_snapshot
        ⟨"pid", "log", "checkpoints", "recovery_checkpoints", "snap"⟩
        (FS.mk (fun s => s == "t/b")
          (fun s => if s == "t/a/checkpoints/snap"
                    then [(20, "t/a/checkpoints/snap-20"), (5, "t/a/checkpoints/snap-5")]
                    else []))
        "t" ["a", "b"] none).2 = some ("a", 5, "t/a/checkpoints/snap-5") ∧
    (20, "t/a/checkpoints/snap-20") ∈
      (FS.mk (fun s => s == "t/b")
        (fun s => if s == "t/a/checkpoints/snap"
                  then [(20, "t/a/checkpoints/snap-20"), (5, "t/a/checkpoints/snap-5")]
                  else [])).retrieve_all_checkpoints "t/a/checkpoints/snap" ∧
    (5 : Nat) < 20 := by
  refine ⟨by decide, by decide, by decide⟩

end TfUtils
